import Mathlib

/-!
Verification of the fusion-directory-scraper repository's core extraction
logic: the hierarchy attribution of `extract_company_links` (src/scraper.py),
the location extraction of `extract_company_info` (src/scraper.py), and the
JSON record extraction and gathering pipeline of
src/israeli_companies_gatherer.py.

Strings are modelled with Lean `String` and `List Char`; the Python and JS
string helpers (strip, lower, upper, regex character classes) are modelled
over ASCII, matching the data the scraper handles.
-/

/-- Boolean prefix test on character lists. -/
def charPrefix : List Char → List Char → Bool
  | [], _ => true
  | _ :: _, [] => false
  | a :: as, b :: bs => a == b && charPrefix as bs

/-- Boolean contiguous-substring test on character lists. -/
def charInfix (needle : List Char) : List Char → Bool
  | [] => needle.isEmpty
  | c :: rest => charPrefix needle (c :: rest) || charInfix needle rest

/-- Models JS `hay.includes(needle)` and Python `needle in hay`. -/
def strContains (hay needle : String) : Bool :=
  charInfix needle.toList hay.toList

/-- Models Python `s.startswith(p)` / JS `s.startsWith(p)`. -/
def strStartsWith (s p : String) : Bool :=
  charPrefix p.toList s.toList

/-- Models one DOM marker event collected by the JS walk in
`extract_company_links` (src/scraper.py lines 113-125): a category heading
(`.h2-responsive`), a subcategory heading (`.h2-bold`), or an organization
link, in document order.  Texts are as collected, already trimmed by
`textContent.trim()`. -/
inductive MarkerEvent where
  | category (text : String)
  | subcategory (text : String)
  | link (href text : String)
deriving DecidableEq

/-- Models the first backtracking loop of the JS attribution (scraper.py
lines 132-137), scanning the reversed prefix of events before a link: it
stops at the first subcategory marker, and a category marker updates the
category accumulator only while that accumulator still holds the sentinel
"Unknown" (`if (prev.type === 'category' && cat === 'Unknown')`). -/
def backtrackSubLoop : List MarkerEvent → String → String × String
  | [], cat => (cat, "Unknown")
  | MarkerEvent.subcategory t :: _, cat => (cat, t)
  | MarkerEvent.category t :: rest, cat =>
      backtrackSubLoop rest (if cat = "Unknown" then t else cat)
  | MarkerEvent.link _ _ :: rest, cat => backtrackSubLoop rest cat

/-- Models the second backtracking loop (scraper.py lines 139-144): the text
of the nearest preceding category marker; run by the JS only when the first
loop left the category at "Unknown". -/
def backtrackCatLoop : List MarkerEvent → String
  | [] => "Unknown"
  | MarkerEvent.category t :: _ => t
  | MarkerEvent.subcategory _ :: rest => backtrackCatLoop rest
  | MarkerEvent.link _ _ :: rest => backtrackCatLoop rest

/-- Models the attribution of a single link from the reversed sequence of
events strictly before it (scraper.py lines 130-144): first loop, then the
second loop if the category is still "Unknown". -/
def backtrackAttribution (revPre : List MarkerEvent) : String × String :=
  let p := backtrackSubLoop revPre "Unknown"
  (if p.1 = "Unknown" then backtrackCatLoop revPre else p.1, p.2)

/-- Models the link filter of the JS walk (scraper.py line 129):
`item.href && item.href.includes('/organizations/') && item.text`. -/
def jsLinkFilter (href text : String) : Bool :=
  href != "" && strContains href "/organizations/" && text != ""

/-- Models one raw attributed link object as pushed by the JS walk
(scraper.py line 145). -/
structure RawLink where
  href : String
  text : String
  category : String
  subcategory : String
deriving DecidableEq

/-- Models the JS walk over the ordered event sequence (scraper.py lines
127-147): for each qualifying link, attribute it by backtracking over the
events before it.  `revPre` is the reversed list of events already walked. -/
def jsWalk (revPre : List MarkerEvent) : List MarkerEvent → List RawLink
  | [] => []
  | MarkerEvent.link h t :: rest =>
      if jsLinkFilter h t then
        ⟨h, t, (backtrackAttribution revPre).1, (backtrackAttribution revPre).2⟩
          :: jsWalk (MarkerEvent.link h t :: revPre) rest
      else jsWalk (MarkerEvent.link h t :: revPre) rest
  | MarkerEvent.category t :: rest => jsWalk (MarkerEvent.category t :: revPre) rest
  | MarkerEvent.subcategory t :: rest => jsWalk (MarkerEvent.subcategory t :: revPre) rest

/-- Python whitespace set of `str.strip` (ASCII part). -/
def isPySpaceChar (c : Char) : Bool :=
  c = ' ' || c = '\t' || c = '\n' || c = '\r' || c = '\x0b' || c = '\x0c'

/-- Models Python `str.strip()` on a character list. -/
def pyStripList (l : List Char) : List Char :=
  ((l.dropWhile isPySpaceChar).reverse.dropWhile isPySpaceChar).reverse

/-- Models Python `str.strip()`. -/
def pyStrip (s : String) : String := (pyStripList s.toList).asString

/-- Models the URL building of the Python post-processing (scraper.py lines
178-184): a path gets the base URL prepended, an absolute URL is kept, and
anything else is skipped (`continue`). -/
def buildFullUrl (base href : String) : Option String :=
  if strStartsWith href "/" then some (base ++ href)
  else if strStartsWith href "http" then some href
  else none

/-- Models one AttributedLink dict as appended by scraper.py lines 187-193. -/
structure AttributedLink where
  url : String
  category : String
  subcategory : String
  link_text : String
deriving DecidableEq

/-- Models the Python post-processing of the JS results (scraper.py lines
156-193).  The JS walk emits only entries of type `link`, so the Python
heading branch (lines 161-170) is dead code and every entry carries its JS
attribution; each link's text is stripped, its URL built, and the
organization filter re-applied. -/
def pyProcessLinks (base : String) (raws : List RawLink) : List AttributedLink :=
  raws.filterMap fun r =>
    match buildFullUrl base r.href with
    | none => none
    | some u =>
        if strContains u "/organizations/" && pyStrip r.text != "" then
          some ⟨u, r.category, r.subcategory, pyStrip r.text⟩
        else none

/-- Models the URL deduplication keeping the first occurrence (scraper.py
lines 219-225); `seen` is the set of URLs already seen. -/
def dedupByUrl : List AttributedLink → List String → List AttributedLink
  | [], _ => []
  | x :: rest, seen =>
      if seen.contains x.url then dedupByUrl rest seen
      else x :: dedupByUrl rest (x.url :: seen)

/-- Models the full `extract_company_links` pipeline on the marker events of
one rendered page (src/scraper.py lines 95-228, success path). -/
def extract_company_links (base : String) (events : List MarkerEvent) :
    List AttributedLink :=
  dedupByUrl (pyProcessLinks base (jsWalk [] events)) []

/-- Spec-side definition, following the spec's words: the text of the nearest
strictly-preceding Category marker, read off a reversed prefix, "or Unknown
if none exists". -/
def specNearestCategory : List MarkerEvent → String
  | [] => "Unknown"
  | MarkerEvent.category t :: _ => t
  | MarkerEvent.subcategory _ :: rest => specNearestCategory rest
  | MarkerEvent.link _ _ :: rest => specNearestCategory rest

/-- Spec-side definition, following the spec's words: the text of the nearest
strictly-preceding Subcategory marker, read off a reversed prefix, "or
Unknown if none exists". -/
def specNearestSubcategory : List MarkerEvent → String
  | [] => "Unknown"
  | MarkerEvent.subcategory t :: _ => t
  | MarkerEvent.category _ :: rest => specNearestSubcategory rest
  | MarkerEvent.link _ _ :: rest => specNearestSubcategory rest

/-- Spec-side walk: the same emission discipline as `jsWalk`, but attributing
every emitted link by the spec's nearest-strictly-preceding-marker rule. -/
def specWalk (revPre : List MarkerEvent) : List MarkerEvent → List RawLink
  | [] => []
  | MarkerEvent.link h t :: rest =>
      if jsLinkFilter h t then
        ⟨h, t, specNearestCategory revPre, specNearestSubcategory revPre⟩
          :: specWalk (MarkerEvent.link h t :: revPre) rest
      else specWalk (MarkerEvent.link h t :: revPre) rest
  | MarkerEvent.category t :: rest => specWalk (MarkerEvent.category t :: revPre) rest
  | MarkerEvent.subcategory t :: rest => specWalk (MarkerEvent.subcategory t :: revPre) rest

/-- Spec-side pipeline: nearest-preceding attribution, then the same Python
post-processing and URL deduplication. -/
def specExtractCompanyLinks (base : String) (events : List MarkerEvent) :
    List AttributedLink :=
  dedupByUrl (pyProcessLinks base (specWalk [] events)) []

theorem backtrackSubLoop_snd (l : List MarkerEvent) :
    ∀ c, (backtrackSubLoop l c).2 = specNearestSubcategory l := by
  induction l with
  | nil => intro c; rfl
  | cons e rest ih =>
    intro c
    cases e with
    | category t => simp [backtrackSubLoop, specNearestSubcategory, ih]
    | subcategory t => rfl
    | link h t => simp [backtrackSubLoop, specNearestSubcategory, ih]

theorem backtrackSubLoop_fst_of_ne (l : List MarkerEvent) :
    ∀ c, c ≠ "Unknown" → (backtrackSubLoop l c).1 = c := by
  induction l with
  | nil => intro c _; rfl
  | cons e rest ih =>
    intro c hc
    cases e with
    | category t => simp [backtrackSubLoop, hc, ih c hc]
    | subcategory t => rfl
    | link h t => simp [backtrackSubLoop, ih c hc]

theorem backtrackCatLoop_eq_spec (l : List MarkerEvent) :
    backtrackCatLoop l = specNearestCategory l := by
  induction l with
  | nil => rfl
  | cons e rest ih =>
    cases e with
    | category t => rfl
    | subcategory t => simpa [backtrackCatLoop, specNearestCategory] using ih
    | link h t => simpa [backtrackCatLoop, specNearestCategory] using ih

theorem backtrackAttribution_snd (l : List MarkerEvent) :
    (backtrackAttribution l).2 = specNearestSubcategory l := by
  simp [backtrackAttribution, backtrackSubLoop_snd]

theorem backtrackAttribution_fst (l : List MarkerEvent)
    (h : ∀ t, MarkerEvent.category t ∈ l → t ≠ "Unknown") :
    (backtrackAttribution l).1 = specNearestCategory l := by
  induction l with
  | nil => rfl
  | cons e rest ih =>
    cases e with
    | category t =>
        have ht : t ≠ "Unknown" := h t (by simp)
        simp [backtrackAttribution, backtrackSubLoop,
          backtrackSubLoop_fst_of_ne rest t ht, ht, specNearestCategory]
    | subcategory t =>
        simp [backtrackAttribution, backtrackSubLoop, backtrackCatLoop,
          specNearestCategory, backtrackCatLoop_eq_spec]
    | link hh tt =>
        have hrest : ∀ t, MarkerEvent.category t ∈ rest → t ≠ "Unknown" := by
          intro t htmem
          exact h t (by simp [htmem])
        have := ih hrest
        simpa [backtrackAttribution, backtrackSubLoop, backtrackCatLoop,
          specNearestCategory] using this

/-- Decidable form of the amended C1 hypothesis: no Category marker in the
sequence has the literal text "Unknown", the text that collides with the JS
sentinel value. -/
def noUnknownCategory (events : List MarkerEvent) : Bool :=
  events.all fun e =>
    match e with
    | MarkerEvent.category t => t != "Unknown"
    | _ => true

theorem noUnknownCategory_spec (events : List MarkerEvent)
    (h : noUnknownCategory events = true) :
    ∀ t, MarkerEvent.category t ∈ events → t ≠ "Unknown" := by
  intro t ht
  have := List.all_eq_true.mp h _ ht
  simpa using this

theorem jsWalk_eq_specWalk (events : List MarkerEvent) :
    ∀ revPre, (∀ t, MarkerEvent.category t ∈ revPre → t ≠ "Unknown") →
      (∀ t, MarkerEvent.category t ∈ events → t ≠ "Unknown") →
      jsWalk revPre events = specWalk revPre events := by
  induction events with
  | nil => intro revPre _ _; rfl
  | cons e rest ih =>
    intro revPre hpre hev
    have hrest : ∀ t, MarkerEvent.category t ∈ rest → t ≠ "Unknown" := by
      intro t htmem; exact hev t (by simp [htmem])
    cases e with
    | category t =>
        have hpre' : ∀ u, MarkerEvent.category u ∈ (MarkerEvent.category t :: revPre) →
            u ≠ "Unknown" := by
          intro u hu
          rcases List.mem_cons.mp hu with h1 | h2
          · cases h1; exact hev t (by simp)
          · exact hpre u h2
        simpa [jsWalk, specWalk] using ih (MarkerEvent.category t :: revPre) hpre' hrest
    | subcategory t =>
        have hpre' : ∀ u, MarkerEvent.category u ∈ (MarkerEvent.subcategory t :: revPre) →
            u ≠ "Unknown" := by
          intro u hu
          rcases List.mem_cons.mp hu with h1 | h2
          · exact absurd h1 (by simp)
          · exact hpre u h2
        simpa [jsWalk, specWalk] using ih (MarkerEvent.subcategory t :: revPre) hpre' hrest
    | link h t =>
        have hpre' : ∀ u, MarkerEvent.category u ∈ (MarkerEvent.link h t :: revPre) →
            u ≠ "Unknown" := by
          intro u hu
          rcases List.mem_cons.mp hu with h1 | h2
          · exact absurd h1 (by simp)
          · exact hpre u h2
        have hrec := ih (MarkerEvent.link h t :: revPre) hpre' hrest
        by_cases hf : jsLinkFilter h t = true
        · simp [jsWalk, specWalk, hf, hrec, backtrackAttribution_fst revPre hpre,
            backtrackAttribution_snd]
        · simp [jsWalk, specWalk, hf, hrec]

/-- C1 (amended): for every marker-event sequence in which no Category marker
has the literal text "Unknown", the `extract_company_links` pipeline agrees
with the spec-side nearest-strictly-preceding attribution: every emitted
AttributedLink's category/subcategory is the nearest strictly-preceding
Category/Subcategory marker text, with "Unknown" when no such marker
precedes the link. -/
theorem c1_nearest_preceding_attribution (base : String) (events : List MarkerEvent)
    (h : noUnknownCategory events = true) :
    extract_company_links base events = specExtractCompanyLinks base events := by
  unfold extract_company_links specExtractCompanyLinks
  rw [jsWalk_eq_specWalk events [] (by intro t ht; simp at ht)
    (noUnknownCategory_spec events h)]

/-- Witness for C1's amended theorem at a concrete event sequence. -/
theorem c1_nearest_preceding_attribution_witness :
    noUnknownCategory
        [MarkerEvent.category "Magnets", MarkerEvent.subcategory "Cryogenics",
         MarkerEvent.link "/organizations/acme" "Acme",
         MarkerEvent.category "Fuel Cycle",
         MarkerEvent.link "/organizations/beta" "Beta"] = true
    ∧ extract_company_links "https://www.fusionenergybase.com"
        [MarkerEvent.category "Magnets", MarkerEvent.subcategory "Cryogenics",
         MarkerEvent.link "/organizations/acme" "Acme",
         MarkerEvent.category "Fuel Cycle",
         MarkerEvent.link "/organizations/beta" "Beta"]
      = specExtractCompanyLinks "https://www.fusionenergybase.com"
        [MarkerEvent.category "Magnets", MarkerEvent.subcategory "Cryogenics",
         MarkerEvent.link "/organizations/acme" "Acme",
         MarkerEvent.category "Fuel Cycle",
         MarkerEvent.link "/organizations/beta" "Beta"] :=
  ⟨by decide, c1_nearest_preceding_attribution "https://www.fusionenergybase.com" _ (by decide)⟩

/-- C1 as stated is false on the code: when the nearest strictly-preceding
Category marker's text is literally "Unknown", the sentinel comparison
`cat === 'Unknown'` lets an earlier category overwrite it, so the emitted
link carries "A" although the nearest preceding Category marker reads
"Unknown". -/
theorem c1_counterexample :
    extract_company_links "https://www.fusionenergybase.com"
        [MarkerEvent.category "A", MarkerEvent.category "Unknown",
         MarkerEvent.link "/organizations/x" "X"]
      = [⟨"https://www.fusionenergybase.com/organizations/x", "A", "Unknown", "X"⟩]
    ∧ specExtractCompanyLinks "https://www.fusionenergybase.com"
        [MarkerEvent.category "A", MarkerEvent.category "Unknown",
         MarkerEvent.link "/organizations/x" "X"]
      = [⟨"https://www.fusionenergybase.com/organizations/x", "Unknown", "Unknown", "X"⟩] :=
  ⟨by decide, by decide⟩

theorem jsWalk_append (xs ys : List MarkerEvent) :
    ∀ revPre, jsWalk revPre (xs ++ ys)
      = jsWalk revPre xs ++ jsWalk (xs.reverse ++ revPre) ys := by
  induction xs with
  | nil => intro revPre; simp [jsWalk]
  | cons e rest ih =>
    intro revPre
    cases e with
    | category t => simpa [jsWalk] using ih (MarkerEvent.category t :: revPre)
    | subcategory t => simpa [jsWalk] using ih (MarkerEvent.subcategory t :: revPre)
    | link h t =>
        by_cases hf : jsLinkFilter h t = true
        · simpa [jsWalk, hf] using ih (MarkerEvent.link h t :: revPre)
        · simpa [jsWalk, hf] using ih (MarkerEvent.link h t :: revPre)

/-- Decidable statement that a marker list contains no Subcategory marker. -/
def noSubcategoryMarker (l : List MarkerEvent) : Bool :=
  l.all fun e =>
    match e with
    | MarkerEvent.subcategory _ => false
    | _ => true

/-- Decidable statement that a marker list contains a Category marker. -/
def hasCategoryMarker (l : List MarkerEvent) : Bool :=
  l.any fun e =>
    match e with
    | MarkerEvent.category _ => true
    | _ => false

theorem specNearestSubcategory_append (l : List MarkerEvent)
    (hl : noSubcategoryMarker l = true) (S : String) (r : List MarkerEvent) :
    specNearestSubcategory (l ++ MarkerEvent.subcategory S :: r) = S := by
  induction l with
  | nil => rfl
  | cons e rest ih =>
    have hrest : noSubcategoryMarker rest = true := by
      have := List.all_eq_true.mp hl
      exact List.all_eq_true.mpr fun x hx => this x (by simp [hx])
    cases e with
    | category t => simpa [specNearestSubcategory] using ih hrest
    | subcategory t =>
        have h2 := List.all_eq_true.mp hl (MarkerEvent.subcategory t) (by simp)
        simp at h2
    | link h t => simpa [specNearestSubcategory] using ih hrest

theorem noSubcategoryMarker_reverse (l : List MarkerEvent)
    (h : noSubcategoryMarker l = true) : noSubcategoryMarker l.reverse = true := by
  have := List.all_eq_true.mp h
  exact List.all_eq_true.mpr fun x hx => this x (by simpa using hx)

/-- C2 (amended): a Category marker does NOT reset the tracked subcategory.
If a qualifying Link is preceded by a Subcategory marker with text `S`, a
Category marker occurs between them, and no other Subcategory marker lies in
between, then the attributed link the JS walk emits for that Link carries
subcategory `S` (the nearest preceding Subcategory marker), not "Unknown". -/
theorem c2_category_does_not_reset_subcategory
    (pre mid post : List MarkerEvent) (S h t : String)
    (hmid : noSubcategoryMarker mid = true)
    (_hcat : hasCategoryMarker mid = true)
    (hq : jsLinkFilter h t = true) :
    ∃ c rest,
      jsWalk [] (pre ++ MarkerEvent.subcategory S :: (mid ++ MarkerEvent.link h t :: post))
        = jsWalk [] (pre ++ MarkerEvent.subcategory S :: mid)
            ++ ⟨h, t, c, S⟩ :: rest := by
  have hsplit :
      pre ++ MarkerEvent.subcategory S :: (mid ++ MarkerEvent.link h t :: post)
        = (pre ++ MarkerEvent.subcategory S :: mid) ++ (MarkerEvent.link h t :: post) := by
    simp
  rw [hsplit, jsWalk_append]
  have hrev : (pre ++ MarkerEvent.subcategory S :: mid).reverse
      = mid.reverse ++ MarkerEvent.subcategory S :: pre.reverse := by
    simp
  have hsub : (backtrackAttribution
      ((pre ++ MarkerEvent.subcategory S :: mid).reverse ++ [])).2 = S := by
    rw [List.append_nil, hrev, backtrackAttribution_snd,
      specNearestSubcategory_append mid.reverse (noSubcategoryMarker_reverse mid hmid)]
  refine ⟨(backtrackAttribution ((pre ++ MarkerEvent.subcategory S :: mid).reverse ++ [])).1,
    jsWalk (MarkerEvent.link h t :: ((pre ++ MarkerEvent.subcategory S :: mid).reverse ++ [])) post,
    ?_⟩
  rw [jsWalk, if_pos hq, hsub]

/-- Witness for C2's amended theorem at a concrete event sequence. -/
theorem c2_category_does_not_reset_subcategory_witness :
    noSubcategoryMarker [MarkerEvent.category "C"] = true
    ∧ hasCategoryMarker [MarkerEvent.category "C"] = true
    ∧ jsLinkFilter "/organizations/x" "X" = true
    ∧ ∃ c rest,
        jsWalk [] ([MarkerEvent.subcategory "S"]
            ++ MarkerEvent.subcategory "S" :: ([MarkerEvent.category "C"]
              ++ MarkerEvent.link "/organizations/x" "X" :: []))
          = jsWalk [] ([MarkerEvent.subcategory "S"]
              ++ MarkerEvent.subcategory "S" :: [MarkerEvent.category "C"])
              ++ ⟨"/organizations/x", "X", c, "S"⟩ :: rest :=
  ⟨by decide, by decide, by decide,
    c2_category_does_not_reset_subcategory [MarkerEvent.subcategory "S"]
      [MarkerEvent.category "C"] [] "S" "/organizations/x" "X"
      (by decide) (by decide) (by decide)⟩

/-- C2 as stated is false on the code: in the sequence Subcategory "S",
Category "C", Link, the backtracking attribution still finds the Subcategory
marker that precedes the Category marker, so the emitted AttributedLink has
subcategory "S", not "Unknown". -/
theorem c2_counterexample :
    extract_company_links "https://www.fusionenergybase.com"
        [MarkerEvent.subcategory "S", MarkerEvent.category "C",
         MarkerEvent.link "/organizations/x" "X"]
      = [⟨"https://www.fusionenergybase.com/organizations/x", "C", "S", "X"⟩]
    ∧ ("S" : String) ≠ "Unknown" :=
  ⟨by decide, by decide⟩

/-- Number of attributed links carrying the URL `u`. -/
def countUrl (l : List AttributedLink) (u : String) : Nat :=
  (l.filter fun x => x.url == u).length

theorem countUrl_cons (x : AttributedLink) (rest : List AttributedLink) (u : String) :
    countUrl (x :: rest) u = (if x.url = u then 1 else 0) + countUrl rest u := by
  simp only [countUrl, List.filter_cons]
  by_cases h : x.url = u
  · simp [h, Nat.add_comm]
  · simp [h]

theorem countUrl_dedup (l : List AttributedLink) :
    ∀ (seen : List String) (u : String),
      countUrl (dedupByUrl l seen) u
        = if u ∈ seen then 0 else min (countUrl l u) 1 := by
  induction l with
  | nil =>
    intro seen u
    simp [dedupByUrl, countUrl]
  | cons x rest ih =>
    intro seen u
    rw [dedupByUrl]
    by_cases hseen : x.url ∈ seen
    · rw [if_pos (by simpa using hseen), ih seen u, countUrl_cons]
      by_cases hxu : x.url = u
      · subst hxu
        simp [hseen]
      · simp [hxu]
    · rw [if_neg (by simpa using hseen), countUrl_cons,
        show dedupByUrl rest (x.url :: seen) =
          dedupByUrl rest (x.url :: seen) from rfl]
      have hLhs : countUrl (dedupByUrl rest (x.url :: seen)) u
          = if u ∈ x.url :: seen then 0 else min (countUrl rest u) 1 :=
        ih (x.url :: seen) u
      rw [hLhs, countUrl_cons]
      by_cases hxu : x.url = u
      · subst hxu
        simp only [List.mem_cons, true_or, if_true, if_pos rfl]
        rw [if_neg hseen]
        omega
      · have hux : ¬ u = x.url := fun h => hxu h.symm
        simp only [List.mem_cons, hux, false_or, if_neg hxu]
        by_cases hu : u ∈ seen
        · simp [hu]
        · simp [hu]

theorem find_dedup (l : List AttributedLink) :
    ∀ (seen : List String) (u : String), u ∉ seen →
      (dedupByUrl l seen).find? (fun x => x.url == u)
        = l.find? (fun x => x.url == u) := by
  induction l with
  | nil => intro seen u _; rfl
  | cons x rest ih =>
    intro seen u hu
    rw [dedupByUrl]
    by_cases hseen : x.url ∈ seen
    · rw [if_pos (by simpa using hseen)]
      have hne : ¬ ((x.url == u) = true) := by
        simp only [beq_iff_eq]
        intro h
        exact hu (h ▸ hseen)
      rw [@List.find?_cons_of_neg AttributedLink (fun y => y.url == u) x rest hne,
        ih seen u hu]
    · rw [if_neg (by simpa using hseen)]
      by_cases hx : x.url = u
      · subst hx
        have hxx : ((x.url == x.url) = true) := by simp
        rw [@List.find?_cons_of_pos AttributedLink (fun y => y.url == x.url) x
            (dedupByUrl rest (x.url :: seen)) hxx,
          @List.find?_cons_of_pos AttributedLink (fun y => y.url == x.url) x rest hxx]
      · have hne : ¬ ((x.url == u) = true) := by
          simpa using hx
        have hu2 : u ∉ x.url :: seen := by
          intro hmem
          rcases List.mem_cons.mp hmem with h1 | h2
          · exact hx h1.symm
          · exact hu h2
        rw [@List.find?_cons_of_neg AttributedLink (fun y => y.url == u) x
            (dedupByUrl rest (x.url :: seen)) hne,
          @List.find?_cons_of_neg AttributedLink (fun y => y.url == u) x rest hne,
          ih (x.url :: seen) u hu2]

theorem dedup_idempotent (l : List AttributedLink) :
    ∀ seen : List String,
      dedupByUrl (dedupByUrl l seen) seen = dedupByUrl l seen := by
  induction l with
  | nil => intro seen; rfl
  | cons x rest ih =>
    intro seen
    by_cases hseen : seen.contains x.url = true
    · rw [dedupByUrl, if_pos hseen, ih seen]
    · rw [dedupByUrl, if_neg hseen, dedupByUrl, if_neg hseen, ih (x.url :: seen)]

/-- C3: if the attributed links of an event sequence contain the URL `u` at
least twice before deduplication, then `extract_company_links` emits exactly
one AttributedLink with that URL, namely the first pre-deduplication
occurrence (so it carries the category/subcategory current at the first
occurrence of the URL), and re-running the URL deduplication on the output
changes nothing. -/
theorem c3_dedup_first_occurrence_wins (base : String) (events : List MarkerEvent)
    (u : String)
    (h2 : 2 ≤ countUrl (pyProcessLinks base (jsWalk [] events)) u) :
    countUrl (extract_company_links base events) u = 1
    ∧ (extract_company_links base events).find? (fun x => x.url == u)
        = (pyProcessLinks base (jsWalk [] events)).find? (fun x => x.url == u)
    ∧ dedupByUrl (extract_company_links base events) []
        = extract_company_links base events := by
  unfold extract_company_links
  refine ⟨?_, ?_, ?_⟩
  · rw [countUrl_dedup (pyProcessLinks base (jsWalk [] events)) [] u]
    have h1 : 1 ≤ countUrl (pyProcessLinks base (jsWalk [] events)) u :=
      le_trans (by norm_num) h2
    simp [Nat.min_eq_right h1]
  · exact find_dedup (pyProcessLinks base (jsWalk [] events)) [] u (by simp)
  · exact dedup_idempotent (pyProcessLinks base (jsWalk [] events)) []

/-- Witness for C3 at a concrete event sequence with a repeated link URL. -/
theorem c3_dedup_first_occurrence_wins_witness :
    2 ≤ countUrl (pyProcessLinks "https://www.fusionenergybase.com"
        (jsWalk [] [MarkerEvent.category "A",
          MarkerEvent.link "/organizations/x" "First",
          MarkerEvent.subcategory "B",
          MarkerEvent.link "/organizations/x" "Second"]))
        "https://www.fusionenergybase.com/organizations/x"
    ∧ (countUrl (extract_company_links "https://www.fusionenergybase.com"
          [MarkerEvent.category "A",
           MarkerEvent.link "/organizations/x" "First",
           MarkerEvent.subcategory "B",
           MarkerEvent.link "/organizations/x" "Second"])
          "https://www.fusionenergybase.com/organizations/x" = 1
        ∧ (extract_company_links "https://www.fusionenergybase.com"
            [MarkerEvent.category "A",
             MarkerEvent.link "/organizations/x" "First",
             MarkerEvent.subcategory "B",
             MarkerEvent.link "/organizations/x" "Second"]).find?
              (fun x => x.url == "https://www.fusionenergybase.com/organizations/x")
          = (pyProcessLinks "https://www.fusionenergybase.com"
              (jsWalk [] [MarkerEvent.category "A",
                MarkerEvent.link "/organizations/x" "First",
                MarkerEvent.subcategory "B",
                MarkerEvent.link "/organizations/x" "Second"])).find?
              (fun x => x.url == "https://www.fusionenergybase.com/organizations/x")
        ∧ dedupByUrl (extract_company_links "https://www.fusionenergybase.com"
            [MarkerEvent.category "A",
             MarkerEvent.link "/organizations/x" "First",
             MarkerEvent.subcategory "B",
             MarkerEvent.link "/organizations/x" "Second"]) []
          = extract_company_links "https://www.fusionenergybase.com"
            [MarkerEvent.category "A",
             MarkerEvent.link "/organizations/x" "First",
             MarkerEvent.subcategory "B",
             MarkerEvent.link "/organizations/x" "Second"]) :=
  ⟨by decide,
    c3_dedup_first_occurrence_wins "https://www.fusionenergybase.com"
      [MarkerEvent.category "A",
       MarkerEvent.link "/organizations/x" "First",
       MarkerEvent.subcategory "B",
       MarkerEvent.link "/organizations/x" "Second"]
      "https://www.fusionenergybase.com/organizations/x" (by decide)⟩

/-- The regex character class `[A-Z]`. -/
def isUpperAZ (c : Char) : Bool := 'A' ≤ c && c ≤ 'Z'

/-- The regex character class `[a-z]`. -/
def isLowerAZ (c : Char) : Bool := 'a' ≤ c && c ≤ 'z'

/-- The regex character class `[0-9]`. -/
def isDigit09 (c : Char) : Bool := '0' ≤ c && c ≤ '9'

/-- The regex word-character class `\w` (ASCII part). -/
def isWordCharAZ (c : Char) : Bool :=
  isUpperAZ c || isLowerAZ c || isDigit09 c || c = '_'

/-- The regex `\b` after a word character: true when the next character is
not a word character, or the input ends. -/
def wordBoundary : List Char → Bool
  | [] => true
  | c :: _ => !isWordCharAZ c

/-- Matches the regex piece `[A-Z][a-z]+` greedily at the head of `l`,
returning the word and the rest.  In every pattern of the source the piece
that follows is a character outside `[a-z]`, so maximal munch is exact. -/
def matchCapWord (l : List Char) : Option (List Char × List Char) :=
  match l with
  | [] => none
  | c :: rest =>
      if isUpperAZ c then
        let lows := rest.takeWhile isLowerAZ
        if lows.isEmpty then none
        else some (c :: lows, rest.dropWhile isLowerAZ)
      else none

/-- Matches the regex piece `([A-Z][a-z]+(?:\s+[A-Z][a-z]+)?),` at the head
of `l`: a one- or two-word capitalized city, then a comma.  The greedy
two-word alternative is tried first; when it reaches its comma the one-word
alternative cannot reach one (the character after the first word is
whitespace), so the two cases commit exactly like the backtracking engine. -/
def matchCityComma (l : List Char) : Option (List Char × List Char) :=
  match matchCapWord l with
  | none => none
  | some (w1, r1) =>
      let sp := r1.takeWhile isPySpaceChar
      let two :=
        if sp.isEmpty then none
        else
          match matchCapWord (r1.dropWhile isPySpaceChar) with
          | none => none
          | some (w2, r2) =>
              match r2 with
              | ',' :: r3 => some (w1 ++ sp ++ w2, r3)
              | _ => none
      match two with
      | some res => some res
      | none =>
          match r1 with
          | ',' :: r3 => some (w1, r3)
          | _ => none

/-- Matches the regex piece `([A-Z]{2})\b` at the head of `l`. -/
def matchStateCode (l : List Char) : Option (List Char × List Char) :=
  match l with
  | a :: b :: rest =>
      if isUpperAZ a && isUpperAZ b && wordBoundary rest then some ([a, b], rest)
      else none
  | _ => none

/-- Matches the regex piece `([A-Z][a-z]+)\b` at the head of `l`. -/
def matchStateWord (l : List Char) : Option (List Char × List Char) :=
  match matchCapWord l with
  | some (w, r) => if wordBoundary r then some (w, r) else none
  | none => none

/-- The character class `[:\s]` of the label patterns. -/
def isColonOrSpace (c : Char) : Bool := c = ':' || isPySpaceChar c

/-- Matches the regex piece `Location[:\s]*` at the head of `l`, returning
the rest after the greedy `[:\s]*` (the next piece is `[A-Z]`, which is
disjoint from `[:\s]`, so maximal munch is exact). -/
def matchLocationLabel (l : List Char) : Option (List Char) :=
  if charPrefix "Location".toList l then
    some ((l.drop 8).dropWhile isColonOrSpace)
  else none

/-- Anchored matcher for the source pattern
`Location[:\s]*([A-Z][a-z]+(?:\s+[A-Z][a-z]+)?),\s*([A-Z]{2})\b`
(scraper.py lines 352 and 412), returning the two captured groups. -/
def patLabelCode (l : List Char) : Option (String × String) :=
  match matchLocationLabel l with
  | none => none
  | some r =>
      match matchCityComma r with
      | none => none
      | some (city, r2) =>
          match matchStateCode (r2.dropWhile isPySpaceChar) with
          | some (st, _) => some (city.asString, st.asString)
          | none => none

/-- Anchored matcher for the source pattern
`Location[:\s]*([A-Z][a-z]+(?:\s+[A-Z][a-z]+)?),\s*([A-Z][a-z]+)\b`
(scraper.py lines 353 and 413). -/
def patLabelName (l : List Char) : Option (String × String) :=
  match matchLocationLabel l with
  | none => none
  | some r =>
      match matchCityComma r with
      | none => none
      | some (city, r2) =>
          match matchStateWord (r2.dropWhile isPySpaceChar) with
          | some (st, _) => some (city.asString, st.asString)
          | none => none

/-- Anchored matcher for the bare source pattern
`([A-Z][a-z]+(?:\s+[A-Z][a-z]+)?),\s*([A-Z]{2})\b` (scraper.py line 354). -/
def patBareCode (l : List Char) : Option (String × String) :=
  match matchCityComma l with
  | none => none
  | some (city, r2) =>
      match matchStateCode (r2.dropWhile isPySpaceChar) with
      | some (st, _) => some (city.asString, st.asString)
      | none => none

/-- Anchored matcher for the bare source pattern
`([A-Z][a-z]+(?:\s+[A-Z][a-z]+)?),\s*([A-Z][a-z]+)\b` (scraper.py line 355). -/
def patBareName (l : List Char) : Option (String × String) :=
  match matchCityComma l with
  | none => none
  | some (city, r2) =>
      match matchStateWord (r2.dropWhile isPySpaceChar) with
      | some (st, _) => some (city.asString, st.asString)
      | none => none

/-- Leftmost match, modelling `re.findall(...)` followed by `matches[0]`:
try every start position from the left, at each position running the
deterministic anchored matcher. -/
def findFirstMatch {α : Type} (pat : List Char → Option α) :
    List Char → Option α
  | [] => pat []
  | c :: rest =>
      match pat (c :: rest) with
      | some r => some r
      | none => findFirstMatch pat rest

/-- The `us_states_2` list of scraper.py lines 362 and 419: the fifty
two-letter USPS state codes (the District of Columbia is absent). -/
def us_states_2 : List String :=
  ["AL", "AK", "AZ", "AR", "CA", "CO", "CT", "DE", "FL", "GA", "HI", "ID",
   "IL", "IN", "IA", "KS", "KY", "LA", "ME", "MD", "MA", "MI", "MN", "MS",
   "MO", "MT", "NE", "NV", "NH", "NJ", "NM", "NY", "NC", "ND", "OH", "OK",
   "OR", "PA", "RI", "SC", "SD", "TN", "TX", "UT", "VT", "VA", "WA", "WV",
   "WI", "WY"]

/-- The `us_state_map` dict of scraper.py lines 363-365 (also lines 383-385
and 420-422): full US state and territory names mapped to their two-letter
codes, including the District of Columbia variants. -/
def us_state_map : List (String × String) :=
  [("Alabama", "AL"), ("Alaska", "AK"), ("Arizona", "AZ"), ("Arkansas", "AR"),
   ("California", "CA"), ("Colorado", "CO"), ("Connecticut", "CT"),
   ("Delaware", "DE"), ("Florida", "FL"), ("Georgia", "GA"), ("Hawaii", "HI"),
   ("Idaho", "ID"), ("Illinois", "IL"), ("Indiana", "IN"), ("Iowa", "IA"),
   ("Kansas", "KS"), ("Kentucky", "KY"), ("Louisiana", "LA"), ("Maine", "ME"),
   ("Maryland", "MD"), ("Massachusetts", "MA"), ("Michigan", "MI"),
   ("Minnesota", "MN"), ("Mississippi", "MS"), ("Missouri", "MO"),
   ("Montana", "MT"), ("Nebraska", "NE"), ("Nevada", "NV"),
   ("New Hampshire", "NH"), ("New Jersey", "NJ"), ("New Mexico", "NM"),
   ("New York", "NY"), ("North Carolina", "NC"), ("North Dakota", "ND"),
   ("Ohio", "OH"), ("Oklahoma", "OK"), ("Oregon", "OR"),
   ("Pennsylvania", "PA"), ("Rhode Island", "RI"), ("South Carolina", "SC"),
   ("South Dakota", "SD"), ("Tennessee", "TN"), ("Texas", "TX"),
   ("Utah", "UT"), ("Vermont", "VT"), ("Virginia", "VA"),
   ("Washington", "WA"), ("West Virginia", "WV"), ("Wisconsin", "WI"),
   ("Wyoming", "WY"), ("District of Columbia", "DC"), ("D.C.", "DC"),
   ("Washington DC", "DC"), ("Washington, DC", "DC")]

/-- Case-sensitive lookup in `us_state_map`. -/
def lookupStateMap (s : String) : Option String :=
  (us_state_map.find? fun p => p.1 == s).map fun p => p.2

/-- Models Python `us_state_map.values()`. -/
def us_state_map_values : List String := us_state_map.map fun p => p.2

/-- Models Python `str.upper()` (ASCII), mapping character-wise. -/
def strUpperAscii (s : String) : String := (s.toList.map Char.toUpper).asString

/-- The recognition applied to a pattern match in the heading-anchored
strategy (scraper.py lines 366-375): a two-letter match recognized against
`us_states_2` is kept uppercased, a full name is mapped through
`us_state_map`; anything else makes the pattern loop move on (no break). -/
def classifyHeadingPattern (city st : String) : Option (String × String) :=
  if st.length = 2 && us_states_2.contains (strUpperAscii st) then
    some (city, strUpperAscii st)
  else
    match lookupStateMap st with
    | some code => some (city, code)
    | none => none

/-- Models Python `split(',', 1)`: the parts before and after the first
comma, or `none` when there is no comma. -/
def splitFirstComma : List Char → Option (List Char × List Char)
  | [] => none
  | ',' :: rest => some ([], rest)
  | c :: rest =>
      match splitFirstComma rest with
      | some (a, b) => some (c :: a, b)
      | none => none

/-- The comma fallback of the heading-anchored strategy (scraper.py lines
376-392): split once on the first comma and strip both parts; a two-letter
right part recognized against the map's values is uppercased, a full name is
mapped, anything else is kept verbatim as the region (country case); an
empty left part produces nothing. -/
def commaClassify (first second : String) : Option (String × String) :=
  if first = "" then none
  else if second.length = 2 && us_state_map_values.contains (strUpperAscii second) then
    some (first, strUpperAscii second)
  else
    match lookupStateMap second with
    | some code => some (first, code)
    | none => some (first, second)

/-- Splits the candidate once at the first comma and classifies the stripped
parts (scraper.py lines 378-392). -/
def commaFallback (cand : List Char) : Option (String × String) :=
  match splitFirstComma cand with
  | none => none
  | some (a, b) => commaClassify (pyStripList a).asString (pyStripList b).asString

/-- One round of the heading-anchored pattern loop: the leftmost match of
one pattern, classified; an unrecognized state falls through. -/
def tryHeadingPattern (pat : List Char → Option (String × String))
    (l : List Char) : Option (String × String) :=
  match findFirstMatch pat l with
  | some (c, s) => classifyHeadingPattern c s
  | none => none

/-- The heading-anchored extraction applied to one gathered candidate text
(scraper.py lines 349-395): the four patterns in priority order, then the
comma fallback. -/
def extractLocationFromCandidate (cand : String) : Option (String × String) :=
  match tryHeadingPattern patLabelCode cand.toList with
  | some r => some r
  | none =>
      match tryHeadingPattern patLabelName cand.toList with
      | some r => some r
      | none =>
          match tryHeadingPattern patBareCode cand.toList with
          | some r => some r
          | none =>
              match tryHeadingPattern patBareName cand.toList with
              | some r => some r
              | none => commaFallback cand.toList

/-- First index of `needle` as a substring, modelling Python `str.find` (the
source's -1 sentinel corresponds to `none`). -/
def firstInfixPos (needle : List Char) : List Char → Option Nat
  | [] => if needle.isEmpty then some 0 else none
  | c :: rest =>
      if charPrefix needle (c :: rest) then some 0
      else (firstInfixPos needle rest).map fun n => n + 1

/-- The 200-character window after the first case-insensitive occurrence of
"location" in the page text (scraper.py lines 406-409). -/
def locationWindow (pageText : String) : Option (List Char) :=
  match firstInfixPos "location".toList (pageText.toList.map Char.toLower) with
  | none => none
  | some i => some ((pageText.toList.drop i).take 200)

/-- The classification applied to a pattern match in the full-text fallback
(scraper.py lines 418-435): a recognized code is kept, a full name mapped,
and anything else is kept verbatim as the region ("treat as country"). -/
def classifyFallbackPattern (city st : String) : String × String :=
  if st.length = 2 && us_states_2.contains (strUpperAscii st) then
    (city, strUpperAscii st)
  else
    match lookupStateMap st with
    | some code => (city, code)
    | none => (city, st)

/-- The BeautifulSoup full-text fallback of `extract_company_info`
(scraper.py lines 402-437): find "location" case-insensitively, take the 200
characters from it, and try only the two labeled patterns; the leftmost
match of the first matching pattern always produces a result. -/
def fullTextLocationScan (pageText : String) : Option (String × String) :=
  match locationWindow pageText with
  | none => none
  | some window =>
      match findFirstMatch patLabelCode window with
      | some (c, s) => some (classifyFallbackPattern c s)
      | none =>
          match findFirstMatch patLabelName window with
          | some (c, s) => some (classifyFallbackPattern c s)
          | none => none

example : fullTextLocationScan "Location: Austin, TX" = some ("Austin", "TX") := by decide
example : fullTextLocationScan "location\nAustin, TX" = none := by decide
example : extractLocationFromCandidate "Tel Aviv, Israel" = some ("Tel Aviv", "Israel") := by decide
example : extractLocationFromCandidate "New York, New York" = some ("New York", "NY") := by decide
example : extractLocationFromCandidate "Austin, TX 78701" = some ("Austin", "TX") := by decide

/-- A rendered DOM element reduced to what the location-heading selection
inspects: whether it is an h1-h6 heading, and its rendered text (the XPath
string-value and the Selenium `.text` of one element are both modelled by
this text). -/
structure PageElem where
  isHeading : Bool
  text : String
deriving DecidableEq

/-- XPath `translate(s, 'LOCATION', 'location')`: the seven distinct capital
letters of "LOCATION" are lowercased, every other character is unchanged. -/
def xlatChar (c : Char) : Char :=
  if c = 'L' then 'l' else if c = 'O' then 'o' else if c = 'C' then 'c'
  else if c = 'A' then 'a' else if c = 'T' then 't' else if c = 'I' then 'i'
  else if c = 'N' then 'n' else c

/-- XPath whitespace. -/
def isXmlSpace (c : Char) : Bool := c = ' ' || c = '\t' || c = '\n' || c = '\r'

/-- Splits a character list into maximal whitespace-free words. -/
def splitXmlWords (l : List Char) : List (List Char) :=
  (l.foldr
    (fun c acc =>
      if isXmlSpace c then [] :: acc
      else
        match acc with
        | [] => [[c]]
        | w :: ws => (c :: w) :: ws)
    []).filter fun w => !w.isEmpty

/-- Joins words with single spaces. -/
def joinWithSpace : List (List Char) → List Char
  | [] => []
  | [w] => w
  | w :: ws => w ++ ' ' :: joinWithSpace ws

/-- XPath `normalize-space`: strip leading and trailing whitespace and
collapse internal whitespace runs to single spaces. -/
def normalizeSpace (l : List Char) : List Char := joinWithSpace (splitXmlWords l)

/-- The primary XPath of the location-header search (scraper.py lines
305-308): h1-h6 headings whose normalized, LOCATION-lowercased text is
exactly "location". -/
def xpathExactLocation (e : PageElem) : Bool :=
  e.isHeading && (normalizeSpace (e.text.toList.map xlatChar) == "location".toList)

/-- The fallback XPath of the location-header search (scraper.py lines
310-314): any element whose LOCATION-lowercased text contains "location". -/
def xpathContainsLocation (e : PageElem) : Bool :=
  charInfix "location".toList (e.text.toList.map xlatChar)

/-- The `location_headers` list (scraper.py lines 303-314): the exact
headings when any exist, otherwise the substring fallback over all
elements. -/
def locationHeaders (elems : List PageElem) : List PageElem :=
  let exact := elems.filter xpathExactLocation
  if exact.isEmpty then elems.filter xpathContainsLocation else exact

/-- The Python check applied to each candidate header before it is used as
an anchor (scraper.py lines 317-319):
`'location' in header_text and len(header_text) < 50` on the stripped,
lowercased text. -/
def headerAnchorCheck (t : String) : Bool :=
  let ht := (pyStripList t.toList).map Char.toLower
  charInfix "location".toList ht && decide (ht.length < 50)

/-- An element is treated as a location anchor when the XPath search selects
it and the Python check accepts it (scraper.py lines 303-319). -/
def isLocationAnchor (elems : List PageElem) (e : PageElem) : Bool :=
  (locationHeaders elems).contains e && headerAnchorCheck e.text

/-- C4 fails on the code (code bug): on a page whose only heading reads
"Our Location and Hours" (no exactly-"location" heading anywhere), the
fallback XPath selects that heading and the Python check
`'location' in header_text and len(header_text) < 50` accepts it, so the
heading IS treated as a location anchor — although the comment right above
the check (scraper.py line 318) says it should keep only actual "Location"
headings, "not just containing the word", and the heading is not an exact
"location" heading. -/
theorem c4_substring_check_accepts_contained_word :
    isLocationAnchor [⟨true, "Our Location and Hours"⟩]
        ⟨true, "Our Location and Hours"⟩ = true
    ∧ xpathExactLocation ⟨true, "Our Location and Hours"⟩ = false :=
  ⟨by decide, by decide⟩

theorem charPrefix_iff_append (p : List Char) :
    ∀ l, charPrefix p l = true → ∃ rest, l = p ++ rest := by
  induction p with
  | nil => intro l _; exact ⟨l, rfl⟩
  | cons a as ih =>
    intro l h
    cases l with
    | nil => simp [charPrefix] at h
    | cons b bs =>
        rw [charPrefix] at h
        have h' : a = b ∧ charPrefix as bs = true := by simpa using h
        obtain ⟨rest, hr⟩ := ih bs h'.2
        exact ⟨rest, by rw [hr, h'.1]; rfl⟩

theorem findFirstMatch_sound {α : Type} (pat : List Char → Option α)
    (l : List Char) (a : α) (h : findFirstMatch pat l = some a) :
    ∃ n, pat (l.drop n) = some a := by
  induction l with
  | nil => exact ⟨0, h⟩
  | cons c rest ih =>
    rw [findFirstMatch] at h
    cases hp : pat (c :: rest) with
    | some b =>
        refine ⟨0, ?_⟩
        rw [List.drop_zero, hp]
        rw [hp] at h
        exact h
    | none =>
        rw [hp] at h
        obtain ⟨n, hn⟩ := ih h
        exact ⟨n + 1, by simpa using hn⟩

theorem patLabelCode_requires_label (l : List Char) (r : String × String)
    (h : patLabelCode l = some r) : charPrefix "Location".toList l = true := by
  rw [patLabelCode, matchLocationLabel] at h
  by_cases hp : charPrefix "Location".toList l = true
  · exact hp
  · rw [if_neg hp] at h
    exact Option.noConfusion h

theorem patLabelName_requires_label (l : List Char) (r : String × String)
    (h : patLabelName l = some r) : charPrefix "Location".toList l = true := by
  rw [patLabelName, matchLocationLabel] at h
  by_cases hp : charPrefix "Location".toList l = true
  · exact hp
  · rw [if_neg hp] at h
    exact Option.noConfusion h

/-- C5 (amended): the full-text-scan strategy applies only the two labeled
patterns (`Location: City, ST` and `Location: City, StateName`) to the 200
characters after the first case-insensitive occurrence of "location", so it
yields a LocationMatch only when the capitalized literal "Location" occurs
inside that window; a bare "City, ST" or "City, StateName" occurrence with
no label never by itself yields a LocationMatch from this strategy. -/
theorem c5_fulltext_scan_requires_label (pageText : String) (m : String × String)
    (h : fullTextLocationScan pageText = some m) :
    ∃ w l1 l2, locationWindow pageText = some w
      ∧ w = l1 ++ "Location".toList ++ l2 := by
  rw [fullTextLocationScan] at h
  cases hw : locationWindow pageText with
  | none => rw [hw] at h; exact Option.noConfusion h
  | some w =>
      rw [hw] at h
      have h1 : (match findFirstMatch patLabelCode w with
          | some (c, s) => some (classifyFallbackPattern c s)
          | none =>
              match findFirstMatch patLabelName w with
              | some (c, s) => some (classifyFallbackPattern c s)
              | none => none) = some m := h
      have key : ∃ n r, patLabelCode (w.drop n) = some r
          ∨ patLabelName (w.drop n) = some r := by
        cases hc : findFirstMatch patLabelCode w with
        | some cs =>
            obtain ⟨n, hn⟩ := findFirstMatch_sound patLabelCode w cs hc
            exact ⟨n, cs, Or.inl hn⟩
        | none =>
            rw [hc] at h1
            have h2 : (match findFirstMatch patLabelName w with
                | some (c, s) => some (classifyFallbackPattern c s)
                | none => none) = some m := h1
            cases hd : findFirstMatch patLabelName w with
            | some cs =>
                obtain ⟨n, hn⟩ := findFirstMatch_sound patLabelName w cs hd
                exact ⟨n, cs, Or.inr hn⟩
            | none =>
                rw [hd] at h2
                exact Option.noConfusion h2
      obtain ⟨n, r, hr⟩ := key
      have hpre : charPrefix "Location".toList (w.drop n) = true := by
        cases hr with
        | inl ha => exact patLabelCode_requires_label _ _ ha
        | inr hb => exact patLabelName_requires_label _ _ hb
      obtain ⟨rest, hrest⟩ := charPrefix_iff_append _ _ hpre
      refine ⟨w, w.take n, rest, rfl, ?_⟩
      rw [List.append_assoc, ← hrest, List.take_append_drop]

/-- Witness for C5's amended theorem: the labeled pattern does fire. -/
theorem c5_fulltext_scan_requires_label_witness :
    fullTextLocationScan "Location: Austin, TX" = some ("Austin", "TX")
    ∧ ∃ w l1 l2, locationWindow "Location: Austin, TX" = some w
        ∧ w = l1 ++ "Location".toList ++ l2 :=
  ⟨by decide,
    c5_fulltext_scan_requires_label "Location: Austin, TX" ("Austin", "TX") (by decide)⟩

/-- C5 as stated is false on the code: the full-text fallback carries only
the two labeled patterns (scraper.py lines 411-414), not the four of the
heading-anchored strategy.  On the page text "location\nAustin, TX" the
window begins at the lowercase "location", contains the bare "Austin, TX"
(which the bare pattern of the heading strategy matches inside the window),
yet the full-text scan produces no LocationMatch. -/
theorem c5_counterexample :
    locationWindow "location\nAustin, TX" = some "location\nAustin, TX".toList
    ∧ findFirstMatch patBareCode "location\nAustin, TX".toList = some ("Austin", "TX")
    ∧ fullTextLocationScan "location\nAustin, TX" = none :=
  ⟨by decide, by decide, by decide⟩

theorem lookupStateMap_mem_values (s code : String)
    (h : lookupStateMap s = some code) :
    us_state_map_values.contains code = true := by
  rw [lookupStateMap] at h
  cases hf : us_state_map.find? (fun p => p.1 == s) with
  | none => rw [hf] at h; exact Option.noConfusion h
  | some q =>
      rw [hf] at h
      have hq : q ∈ us_state_map := List.mem_of_find?_eq_some hf
      have hcode : q.2 = code := by simpa using h
      have : code ∈ us_state_map_values := by
        rw [us_state_map_values, ← hcode]
        exact List.mem_map_of_mem _ hq
      simpa using this

theorem classifyHeadingPattern_region (c s : String) (m : String × String)
    (h : classifyHeadingPattern c s = some m) :
    us_states_2.contains m.2 = true ∨ us_state_map_values.contains m.2 = true := by
  rw [classifyHeadingPattern] at h
  by_cases h1 : (s.length = 2 && us_states_2.contains (strUpperAscii s)) = true
  · rw [if_pos h1] at h
    have hm : m = (c, strUpperAscii s) := by simpa using h.symm
    left
    rw [hm]
    exact (Bool.and_eq_true _ _ |>.mp h1).2
  · rw [if_neg h1] at h
    cases h2 : lookupStateMap s with
    | none => rw [h2] at h; exact Option.noConfusion h
    | some code =>
        rw [h2] at h
        have hm : m = (c, code) := by simpa using h.symm
        right
        rw [hm]
        exact lookupStateMap_mem_values s code h2

theorem tryHeadingPattern_region (pat : List Char → Option (String × String))
    (l : List Char) (m : String × String)
    (h : tryHeadingPattern pat l = some m) :
    us_states_2.contains m.2 = true ∨ us_state_map_values.contains m.2 = true := by
  rw [tryHeadingPattern] at h
  cases hf : findFirstMatch pat l with
  | none => rw [hf] at h; exact Option.noConfusion h
  | some cs =>
      rw [hf] at h
      exact classifyHeadingPattern_region cs.1 cs.2 m h

theorem commaClassify_region (first second : String) (m : String × String)
    (h : commaClassify first second = some m) :
    us_state_map_values.contains m.2 = true ∨ m.2 = second := by
  rw [commaClassify] at h
  by_cases h1 : first = ""
  · rw [if_pos h1] at h
    exact Option.noConfusion h
  · rw [if_neg h1] at h
    by_cases h2 : (second.length = 2
        && us_state_map_values.contains (strUpperAscii second)) = true
    · rw [if_pos h2] at h
      have hm : m = (first, strUpperAscii second) := by simpa using h.symm
      left
      rw [hm]
      exact (Bool.and_eq_true _ _ |>.mp h2).2
    · rw [if_neg h2] at h
      cases h3 : lookupStateMap second with
      | some code =>
          rw [h3] at h
          have hm : m = (first, code) := by simpa using h.symm
          left
          rw [hm]
          exact lookupStateMap_mem_values second code h3
      | none =>
          rw [h3] at h
          have hm : m = (first, second) := by simpa using h.symm
          right
          rw [hm]

theorem commaFallback_region (l : List Char) (m : String × String)
    (h : commaFallback l = some m) :
    us_states_2.contains m.2 = true ∨ us_state_map_values.contains m.2 = true
    ∨ ∃ a b, splitFirstComma l = some (a, b) ∧ m.2 = (pyStripList b).asString := by
  rw [commaFallback] at h
  cases hs : splitFirstComma l with
  | none => rw [hs] at h; exact Option.noConfusion h
  | some ab =>
      obtain ⟨a, b⟩ := ab
      rw [hs] at h
      have h' : commaClassify (pyStripList a).asString (pyStripList b).asString
          = some m := h
      cases commaClassify_region _ _ m h' with
      | inl hv => exact Or.inr (Or.inl hv)
      | inr he => exact Or.inr (Or.inr ⟨a, b, rfl, he⟩)

/-- C6: every LocationMatch the heading-anchored candidate extraction
produces carries a region that is either a recognized two-letter US postal
code (kept as matched, uppercased), or a value of the fixed state lookup
table (a full name mapped to its code), or verbatim the stripped text to the
right of the candidate's first comma; and on the candidate line
"Tel Aviv, Israel" the non-US fallback yields city "Tel Aviv" and region
"Israel". -/
theorem c6_region_normalization :
    (∀ (cand : String) (m : String × String),
      extractLocationFromCandidate cand = some m →
        us_states_2.contains m.2 = true
        ∨ us_state_map_values.contains m.2 = true
        ∨ ∃ a b, splitFirstComma cand.toList = some (a, b)
            ∧ m.2 = (pyStripList b).asString)
    ∧ extractLocationFromCandidate "Tel Aviv, Israel" = some ("Tel Aviv", "Israel") := by
  constructor
  · intro cand m h
    rw [extractLocationFromCandidate] at h
    cases h1 : tryHeadingPattern patLabelCode cand.toList with
    | some r =>
        rw [h1] at h
        have : r = m := by simpa using h
        exact Or.imp id Or.inl (tryHeadingPattern_region _ _ m (this ▸ h1))
    | none =>
    rw [h1] at h
    cases h2 : tryHeadingPattern patLabelName cand.toList with
    | some r =>
        rw [h2] at h
        have : r = m := by simpa using h
        exact Or.imp id Or.inl (tryHeadingPattern_region _ _ m (this ▸ h2))
    | none =>
    rw [h2] at h
    cases h3 : tryHeadingPattern patBareCode cand.toList with
    | some r =>
        rw [h3] at h
        have : r = m := by simpa using h
        exact Or.imp id Or.inl (tryHeadingPattern_region _ _ m (this ▸ h3))
    | none =>
    rw [h3] at h
    cases h4 : tryHeadingPattern patBareName cand.toList with
    | some r =>
        rw [h4] at h
        have : r = m := by simpa using h
        exact Or.imp id Or.inl (tryHeadingPattern_region _ _ m (this ▸ h4))
    | none =>
    rw [h4] at h
    exact commaFallback_region cand.toList m h
  · decide

/-- Witness for C6 at a concrete extraction. -/
theorem c6_region_normalization_witness :
    us_states_2.contains ("Austin", "TX").2 = true
    ∨ us_state_map_values.contains ("Austin", "TX").2 = true
    ∨ ∃ a b, splitFirstComma "Austin, TX".toList = some (a, b)
        ∧ ("Austin", "TX").2 = (pyStripList b).asString :=
  c6_region_normalization.1 "Austin, TX" ("Austin", "TX") (by decide)

/-- JSON value as produced by Python `json.loads`.  Numbers are kept as
their lexemes (no claim inspects a numeric value); objects are key-value
lists in document order. -/
inductive Json where
  | null
  | bool (b : Bool)
  | num (lexeme : String)
  | str (s : String)
  | arr (items : List Json)
  | obj (fields : List (String × Json))

/-- JSON whitespace. -/
def isJsonWs (c : Char) : Bool := c = ' ' || c = '\t' || c = '\n' || c = '\r'

def skipJsonWs (l : List Char) : List Char := l.dropWhile isJsonWs

/-- Value of one hexadecimal digit (codepoints 48-57, 97-102, 65-70). -/
def hexVal (c : Char) : Option Nat :=
  let n := c.toNat
  if 48 ≤ n && n ≤ 57 then some (n - 48)
  else if 97 ≤ n && n ≤ 102 then some (n - 87)
  else if 65 ≤ n && n ≤ 70 then some (n - 55)
  else none

/-- Single-character JSON string escapes. -/
def escChar (e : Char) : Option Char :=
  if e = '"' then some '"' else if e = '\\' then some '\\'
  else if e = '/' then some '/' else if e = 'b' then some '\x08'
  else if e = 'f' then some '\x0c' else if e = 'n' then some '\n'
  else if e = 'r' then some '\r' else if e = 't' then some '\t'
  else none

/-- Parses a JSON string body after the opening quote (strict mode: raw
control characters are rejected, as `json.loads` does); `\uXXXX` escapes are
decoded code-unit-wise. -/
def parseStringBody : Nat → List Char → Option (List Char × List Char)
  | 0, _ => none
  | _ + 1, [] => none
  | fuel + 1, c :: rest =>
      if c = '"' then some ([], rest)
      else if c = '\\' then
        match rest with
        | [] => none
        | e :: r2 =>
            match escChar e with
            | some ch => (parseStringBody fuel r2).map fun p => (ch :: p.1, p.2)
            | none =>
                if e = 'u' then
                  match r2 with
                  | h1 :: h2 :: h3 :: h4 :: r3 =>
                      match hexVal h1, hexVal h2, hexVal h3, hexVal h4 with
                      | some x1, some x2, some x3, some x4 =>
                          (parseStringBody fuel r3).map fun p =>
                            (Char.ofNat (((x1 * 16 + x2) * 16 + x3) * 16 + x4) :: p.1, p.2)
                      | _, _, _, _ => none
                  | _ => none
                else none
      else if c.toNat < 32 then none
      else (parseStringBody fuel rest).map fun p => (c :: p.1, p.2)

/-- Parses the integer digits of a JSON number (a leading 0 takes no
further digits). -/
def parseIntDigits : List Char → Option (List Char × List Char)
  | [] => none
  | c :: rest =>
      if c = '0' then some (['0'], rest)
      else if isDigit09 c then
        some (c :: rest.takeWhile isDigit09, rest.dropWhile isDigit09)
      else none

/-- Parses a JSON number lexeme: `-?(0|[1-9][0-9]*)(\.[0-9]+)?([eE][+-]?[0-9]+)?`. -/
def parseNumLexeme (l : List Char) : Option (List Char × List Char) :=
  let sr :=
    match l with
    | '-' :: r => (['-'], r)
    | _ => (([] : List Char), l)
  match parseIntDigits sr.2 with
  | none => none
  | some (ip, r1) =>
      let fr :=
        match r1 with
        | '.' :: r =>
            let ds := r.takeWhile isDigit09
            if ds.isEmpty then (([] : List Char), r1)
            else ('.' :: ds, r.dropWhile isDigit09)
        | _ => (([] : List Char), r1)
      let er :=
        match fr.2 with
        | e :: r =>
            if e = 'e' || e = 'E' then
              let gr :=
                match r with
                | '+' :: q => (['+'], q)
                | '-' :: q => (['-'], q)
                | _ => (([] : List Char), r)
              let ds := gr.2.takeWhile isDigit09
              if ds.isEmpty then (([] : List Char), fr.2)
              else (e :: (gr.1 ++ ds), gr.2.dropWhile isDigit09)
            else (([] : List Char), fr.2)
        | [] => (([] : List Char), fr.2)
      some (sr.1 ++ ip ++ fr.1 ++ er.1, er.2)

mutual

/-- Fueled recursive-descent parser for one JSON value. -/
def parseJsonValue : Nat → List Char → Option (Json × List Char)
  | 0, _ => none
  | fuel + 1, l =>
      match l with
      | [] => none
      | c :: rest =>
          if c = '"' then
            (parseStringBody fuel rest).map fun p => (Json.str p.1.asString, p.2)
          else if c = '[' then
            match skipJsonWs rest with
            | ']' :: r2 => some (Json.arr [], r2)
            | r2 => (parseJsonArrayItems fuel r2).map fun p => (Json.arr p.1, p.2)
          else if c = '\x7b' then
            match skipJsonWs rest with
            | '\x7d' :: r2 => some (Json.obj [], r2)
            | r2 => (parseJsonObjFields fuel r2).map fun p => (Json.obj p.1, p.2)
          else if charPrefix "true".toList l then some (Json.bool true, l.drop 4)
          else if charPrefix "false".toList l then some (Json.bool false, l.drop 5)
          else if charPrefix "null".toList l then some (Json.null, l.drop 4)
          else
            (parseNumLexeme l).map fun p => (Json.num p.1.asString, p.2)

/-- Parses the comma-separated items of a nonempty JSON array up to `]`. -/
def parseJsonArrayItems : Nat → List Char → Option (List Json × List Char)
  | 0, _ => none
  | fuel + 1, l =>
      match parseJsonValue fuel (skipJsonWs l) with
      | none => none
      | some (v, r) =>
          match skipJsonWs r with
          | ',' :: r2 => (parseJsonArrayItems fuel r2).map fun p => (v :: p.1, p.2)
          | ']' :: r2 => some ([v], r2)
          | _ => none

/-- Parses the fields of a nonempty JSON object up to the closing brace. -/
def parseJsonObjFields : Nat → List Char → Option (List (String × Json) × List Char)
  | 0, _ => none
  | fuel + 1, l =>
      match l with
      | '"' :: r0 =>
          match parseStringBody fuel r0 with
          | none => none
          | some (k, r1) =>
              match skipJsonWs r1 with
              | ':' :: r2 =>
                  match parseJsonValue fuel (skipJsonWs r2) with
                  | none => none
                  | some (v, r3) =>
                      match skipJsonWs r3 with
                      | ',' :: r4 =>
                          (parseJsonObjFields fuel (skipJsonWs r4)).map
                            fun p => ((k.asString, v) :: p.1, p.2)
                      | '\x7d' :: r4 => some ([(k.asString, v)], r4)
                      | _ => none
              | _ => none
      | _ => none

end

/-- Models Python `json.loads` on the texts this repository feeds it:
`none` where `json.loads` raises `JSONDecodeError`.  The fuel is ample for
any input (every nesting level consumes input). -/
def pyJsonLoads (l : List Char) : Option Json :=
  match parseJsonValue (2 * l.length + 4) (skipJsonWs l) with
  | some (v, r) => if (skipJsonWs r).isEmpty then some v else none
  | none => none

example : pyJsonLoads "[\x7b\"companyName\":\"Acme\"\x7d]".toList
    = some (Json.arr [Json.obj [("companyName", Json.str "Acme")]]) := rfl
example : pyJsonLoads "[ oops]".toList = none := rfl
example : pyJsonLoads " [1, 2.5e3, null, true, \"a\\nb\"] ".toList
    = some (Json.arr [Json.num "1", Json.num "2.5e3", Json.null, Json.bool true,
        Json.str "a\nb"]) := rfl

/-- Index of the first occurrence of a character. -/
def firstIdxChar (t : Char) : List Char → Option Nat
  | [] => none
  | c :: rest =>
      if c = t then some 0 else (firstIdxChar t rest).map fun n => n + 1

/-- Index of the last occurrence of a character. -/
def lastIdxChar (t : Char) : List Char → Option Nat
  | [] => none
  | c :: rest =>
      match lastIdxChar t rest with
      | some i => some (i + 1)
      | none => if c = t then some 0 else none

/-- Models Python `str.find(ch)` with its -1 sentinel. -/
def pyFindChar (l : List Char) (t : Char) : Int :=
  match firstIdxChar t l with
  | some i => (i : Int)
  | none => -1

/-- Models Python `str.rfind(ch)` with its -1 sentinel. -/
def pyRFindChar (l : List Char) (t : Char) : Int :=
  match lastIdxChar t l with
  | some i => (i : Int)
  | none => -1

/-- Models the Python slice `l[a:b]` for `0 ≤ a`. -/
def pySlice (l : List Char) (a b : Int) : List Char :=
  (l.drop a.toNat).take (b.toNat - a.toNat)

/-- The fixed 7-field record schema of the LLM pipeline. -/
def schemaFields : List String :=
  ["companyName", "website", "headquarters", "yearFounded", "coreProducts",
   "innovations", "notes"]

/-- Models Python `dict.get(key, '')` on a parsed JSON object: with repeated
keys, `json.loads` keeps the last occurrence. -/
def pyDictGet (kvs : List (String × Json)) (k : String) : Json :=
  match kvs.reverse.find? (fun p => p.1 == k) with
  | some p => p.2
  | none => Json.str ""

/-- The re-keying of one company object against the fixed 7-field schema
with missing fields defaulted to the empty string
(israeli_companies_gatherer.py lines 90-98 and 101-109). -/
def rekeyCompany (kvs : List (String × Json)) : List (String × Json) :=
  schemaFields.map fun f => (f, pyDictGet kvs f)

/-- The handling of a successfully parsed bracket substring
(israeli_companies_gatherer.py lines 87-109): each dict of a list is
re-keyed (non-dict entries are skipped), a single dict is wrapped as one
record, anything else contributes nothing. -/
def companiesOfParsed : Json → List Json
  | Json.arr items =>
      items.filterMap fun it =>
        match it with
        | Json.obj kvs => some (Json.obj (rekeyCompany kvs))
        | _ => none
  | Json.obj kvs => [Json.obj (rekeyCompany kvs)]
  | _ => []

/-- The lazy capture scan of the code-block regex: after the opening `[`,
the lazy `.*?` (DOTALL) absorbs characters, including any `]` whose
continuation `\s*` + three backticks fails, until the first `]` whose
continuation succeeds. -/
def lazyArrayScan : List Char → List Char → Option (List Char)
  | [], _ => none
  | x :: rest, acc =>
      if x = ']' && charPrefix "```".toList (rest.dropWhile isPySpaceChar) then
        some acc.reverse
      else lazyArrayScan rest (x :: acc)

/-- The rest after the opening fence and the greedy optional `json` tag. -/
def afterFenceTag (l : List Char) : List Char :=
  if charPrefix "json".toList (l.drop 3) then (l.drop 3).drop 4 else l.drop 3

/-- Anchored matcher for the code-block regex of
israeli_companies_gatherer.py line 115, at a position starting with the
opening fence: three backticks, an optional `json` tag, `\s*`, then the lazy
array group, `\s*`, and the closing fence.  Returns the captured group. -/
def matchCodeBlockAt (l : List Char) : Option (List Char) :=
  if charPrefix "```".toList l then
    match (afterFenceTag l).dropWhile isPySpaceChar with
    | c0 :: rest =>
        if c0 = '[' then
          match lazyArrayScan rest [] with
          | some content => some ('[' :: content ++ [']'])
          | none => none
        else none
    | [] => none
  else none

/-- Models `re.findall(json_pattern, full_response, re.DOTALL)` followed by
`matches[0]`: the leftmost code-block match. -/
def codeBlockFind (l : List Char) : Option (List Char) :=
  findFirstMatch matchCodeBlockAt l

/-- The branch condition of israeli_companies_gatherer.py line 83:
`json_start != -1 and json_end > json_start`, with
`json_start = full_response.find('[')` and
`json_end = full_response.rfind(']') + 1`. -/
def bracketCondition (l : List Char) : Prop :=
  pyFindChar l '[' ≠ -1 ∧ pyRFindChar l ']' + 1 > pyFindChar l '['

instance bracketCondition_decidable (l : List Char) : Decidable (bracketCondition l) := by
  unfold bracketCondition
  infer_instance

/-- The substring from the first `[` to the last `]`
(israeli_companies_gatherer.py line 84). -/
def bracketSlice (l : List Char) : List Char :=
  pySlice l (pyFindChar l '[') (pyRFindChar l ']' + 1)

/-- The bracket-substring branch body (israeli_companies_gatherer.py lines
84-112): parse and re-key; a parse failure only logs a warning and leaves
the record list empty. -/
def bracketParse (l : List Char) : List Json :=
  match pyJsonLoads (bracketSlice l) with
  | some v => companiesOfParsed v
  | none => []

/-- The code-block branch body (israeli_companies_gatherer.py lines
113-123): the first fenced block's array is parsed and returned raw,
without re-keying; any failure yields the empty list. -/
def codeBlockParse (l : List Char) : List Json :=
  match codeBlockFind l with
  | some arrChars =>
      match pyJsonLoads arrChars with
      | some (Json.arr items) => items
      | _ => []
  | none => []

/-- The JSON record extraction of `query_groq_for_israeli_companies`
(israeli_companies_gatherer.py lines 74-126). -/
def extractJsonRecords (text : String) : List Json :=
  if bracketCondition text.toList then bracketParse text.toList
  else codeBlockParse text.toList

/-- The bracket-substring strategy alone, the reference point of C10. -/
def bracketOnlyExtract (text : String) : List Json :=
  if bracketCondition text.toList then bracketParse text.toList else []

/-- The fenced-code-block strategy alone. -/
def codeBlockExtract (text : String) : List Json := codeBlockParse text.toList

example : extractJsonRecords "```json\n[\x7b\"companyName\":\"Acme\"\x7d]\n```"
    = [Json.obj [("companyName", Json.str "Acme"), ("website", Json.str ""),
        ("headquarters", Json.str ""), ("yearFounded", Json.str ""),
        ("coreProducts", Json.str ""), ("innovations", Json.str ""),
        ("notes", Json.str "")]] := rfl
example : extractJsonRecords "no structured data here" = [] := rfl
example : extractJsonRecords "[ oops\n```json\n[\x7b\"companyName\":\"Acme\"\x7d]\n```" = [] := rfl
example : codeBlockExtract "[ oops\n```json\n[\x7b\"companyName\":\"Acme\"\x7d]\n```"
    = [Json.obj [("companyName", Json.str "Acme")]] := rfl

/-- A `[` with a later `]` somewhere in the list. -/
def hasBracketPair (l : List Char) : Prop :=
  ∃ p m k, l = p ++ '[' :: (m ++ ']' :: k)

theorem lazyArrayScan_mem (l : List Char) :
    ∀ acc c, lazyArrayScan l acc = some c → ']' ∈ l := by
  induction l with
  | nil => intro acc c h; exact Option.noConfusion h
  | cons x rest ih =>
    intro acc c h
    rw [lazyArrayScan] at h
    by_cases hcond : (x = ']' && charPrefix "```".toList
        (rest.dropWhile isPySpaceChar)) = true
    · have hx : x = ']' := by
        have := (Bool.and_eq_true _ _ |>.mp hcond).1
        simpa using this
      simp [hx]
    · rw [if_neg hcond] at h
      exact List.mem_cons_of_mem x (ih (x :: acc) c h)

theorem dropWhile_is_suffix (q : Char → Bool) (l : List Char) :
    ∃ p, l = p ++ l.dropWhile q := by
  induction l with
  | nil => exact ⟨[], rfl⟩
  | cons c rest ih =>
    by_cases hc : q c = true
    · obtain ⟨p, hp⟩ := ih
      refine ⟨c :: p, ?_⟩
      rw [List.dropWhile_cons, if_pos hc]
      rw [List.cons_append, ← hp]
    · refine ⟨[], ?_⟩
      rw [List.dropWhile_cons, if_neg hc, List.nil_append]

theorem afterFenceTag_is_suffix (l : List Char) : ∃ p, l = p ++ afterFenceTag l := by
  rw [afterFenceTag]
  by_cases hj : charPrefix "json".toList (l.drop 3) = true
  · rw [if_pos hj]
    exact ⟨l.take 3 ++ (l.drop 3).take 4, by
      rw [List.append_assoc, List.take_append_drop, List.take_append_drop]⟩
  · rw [if_neg hj]
    exact ⟨l.take 3, (List.take_append_drop 3 l).symm⟩

theorem matchCodeBlockAt_sound (l : List Char) (s : List Char)
    (h : matchCodeBlockAt l = some s) : hasBracketPair l := by
  rw [matchCodeBlockAt] at h
  by_cases hp : charPrefix "```".toList l = true
  · rw [if_pos hp] at h
    cases hd : (afterFenceTag l).dropWhile isPySpaceChar with
    | nil => rw [hd] at h; exact Option.noConfusion h
    | cons c0 rest =>
        rw [hd] at h
        have h2 : (if c0 = '[' then
            (match lazyArrayScan rest [] with
              | some content => some ('[' :: content ++ [']'])
              | none => none)
            else none) = some s := h
        by_cases hc0 : c0 = '['
        · rw [if_pos hc0] at h2
          cases hscan : lazyArrayScan rest [] with
          | none => rw [hscan] at h2; exact Option.noConfusion h2
          | some content =>
              have hmem : ']' ∈ rest := lazyArrayScan_mem rest [] content hscan
              obtain ⟨m, k, hmk⟩ := List.append_of_mem hmem
              obtain ⟨p1, hp1⟩ := afterFenceTag_is_suffix l
              obtain ⟨p2, hp2⟩ := dropWhile_is_suffix isPySpaceChar (afterFenceTag l)
              refine ⟨p1 ++ p2, m, k, ?_⟩
              rw [hp1, hp2, hd, hmk, hc0, List.append_assoc]
        · rw [if_neg hc0] at h2
          exact Option.noConfusion h2
  · rw [if_neg hp] at h
    exact Option.noConfusion h

theorem codeBlockFind_sound (l : List Char) (s : List Char)
    (h : codeBlockFind l = some s) : hasBracketPair l := by
  obtain ⟨n, hn⟩ := findFirstMatch_sound matchCodeBlockAt l s h
  obtain ⟨p, m, k, hpmk⟩ := matchCodeBlockAt_sound (l.drop n) s hn
  refine ⟨l.take n ++ p, m, k, ?_⟩
  rw [List.append_assoc, ← hpmk, List.take_append_drop]

theorem firstIdxChar_le (t : Char) (l1 l2 : List Char) :
    ∃ i, firstIdxChar t (l1 ++ t :: l2) = some i ∧ i ≤ l1.length := by
  induction l1 with
  | nil => exact ⟨0, by simp [firstIdxChar], Nat.zero_le _⟩
  | cons c l1t ih =>
    by_cases hc : c = t
    · exact ⟨0, by simp [firstIdxChar, hc], Nat.zero_le _⟩
    · obtain ⟨i, hi, hle⟩ := ih
      refine ⟨i + 1, ?_, by simpa using Nat.succ_le_succ hle⟩
      rw [List.cons_append, firstIdxChar, if_neg hc, hi]
      rfl

theorem lastIdxChar_ge (t : Char) (l1 l2 : List Char) :
    ∃ j, lastIdxChar t (l1 ++ t :: l2) = some j ∧ l1.length ≤ j := by
  induction l1 with
  | nil =>
    cases hl2 : lastIdxChar t l2 with
    | some i =>
        exact ⟨i + 1, by rw [List.nil_append, lastIdxChar, hl2], Nat.zero_le _⟩
    | none =>
        exact ⟨0, by rw [List.nil_append, lastIdxChar, hl2, if_pos rfl], Nat.le_refl 0⟩
  | cons c l1t ih =>
    obtain ⟨j, hj, hle⟩ := ih
    refine ⟨j + 1, ?_, by simpa using Nat.succ_le_succ hle⟩
    rw [List.cons_append, lastIdxChar, hj]

theorem hasBracketPair_bracketCondition (l : List Char) (hb : hasBracketPair l) :
    bracketCondition l := by
  obtain ⟨p, m, k, hl⟩ := hb
  obtain ⟨i, hi, hile⟩ := firstIdxChar_le '[' p (m ++ ']' :: k)
  obtain ⟨j, hj, hjge⟩ := lastIdxChar_ge ']' (p ++ '[' :: m) k
  have hfind : pyFindChar l '[' = (i : Int) := by
    rw [pyFindChar, hl, hi]
  have hrfind : pyRFindChar l ']' = (j : Int) := by
    have hl2 : l = (p ++ '[' :: m) ++ ']' :: k := by rw [hl]; simp
    rw [pyRFindChar, hl2, hj]
  have hlen : p.length + m.length + 1 ≤ j := by
    have : (p ++ '[' :: m).length = p.length + m.length + 1 := by
      simp [List.length_append]
      omega
    omega
  constructor
  · rw [hfind]
    omega
  · rw [hfind, hrfind]
    omega

theorem codeBlockParse_nil_of_not_cond (l : List Char)
    (hc : ¬ bracketCondition l) : codeBlockParse l = [] := by
  rw [codeBlockParse]
  cases hf : codeBlockFind l with
  | none => rfl
  | some s =>
      exact absurd (hasBracketPair_bracketCondition l (codeBlockFind_sound l s hf)) hc

theorem extractJsonRecords_eq_bracketOnly (text : String) :
    extractJsonRecords text = bracketOnlyExtract text := by
  rw [extractJsonRecords, bracketOnlyExtract]
  by_cases hc : bracketCondition text.toList
  · rw [if_pos hc, if_pos hc]
  · rw [if_neg hc, if_neg hc]
    exact codeBlockParse_nil_of_not_cond text.toList hc

/-- C10: the fenced-code-block strategy never contributes a record: the
code-block branch is only reached when no `[` is followed by a later `]`,
and there its array regex cannot match, so the whole extraction is
observationally equal to the bracket-substring strategy alone. -/
theorem c10_extraction_equals_bracket_strategy (text : String) :
    extractJsonRecords text = bracketOnlyExtract text :=
  extractJsonRecords_eq_bracketOnly text

theorem companiesOfParsed_rekeyed (v : Json) (r : Json)
    (hr : r ∈ companiesOfParsed v) :
    ∃ kvs, r = Json.obj (rekeyCompany kvs) := by
  cases v with
  | arr items =>
      rw [companiesOfParsed] at hr
      obtain ⟨x, hx, hfx⟩ := List.mem_filterMap.mp hr
      cases x with
      | obj kvs => exact ⟨kvs, by simpa using hfx.symm⟩
      | null => exact Option.noConfusion hfx
      | bool b => exact Option.noConfusion hfx
      | num n => exact Option.noConfusion hfx
      | str s => exact Option.noConfusion hfx
      | arr its => exact Option.noConfusion hfx
  | obj kvs =>
      rw [companiesOfParsed] at hr
      have : r = Json.obj (rekeyCompany kvs) := by simpa using hr
      exact ⟨kvs, this⟩
  | null => exact absurd hr (List.not_mem_nil r)
  | bool b => exact absurd hr (List.not_mem_nil r)
  | num n => exact absurd hr (List.not_mem_nil r)
  | str s => exact absurd hr (List.not_mem_nil r)

/-- C7: every record the JSON extraction returns is an object re-keyed
against the fixed 7-field schema (in schema order, with missing fields
defaulted to the empty string), and extracting from the fenced Acme example
yields exactly one record with companyName "Acme" and the six other schema
fields empty. -/
theorem c7_records_rekeyed_to_schema :
    (∀ (text : String) (r : Json), r ∈ extractJsonRecords text →
      ∃ kvs, r = Json.obj (rekeyCompany kvs))
    ∧ extractJsonRecords "```json\n[\x7b\"companyName\":\"Acme\"\x7d]\n```"
      = [Json.obj [("companyName", Json.str "Acme"), ("website", Json.str ""),
          ("headquarters", Json.str ""), ("yearFounded", Json.str ""),
          ("coreProducts", Json.str ""), ("innovations", Json.str ""),
          ("notes", Json.str "")]] := by
  constructor
  · intro text r hr
    rw [extractJsonRecords] at hr
    by_cases hc : bracketCondition text.toList
    · rw [if_pos hc, bracketParse] at hr
      cases hload : pyJsonLoads (bracketSlice text.toList) with
      | none => rw [hload] at hr; exact absurd hr (List.not_mem_nil r)
      | some v =>
          rw [hload] at hr
          exact companiesOfParsed_rekeyed v r hr
    · rw [if_neg hc, codeBlockParse_nil_of_not_cond text.toList hc] at hr
      exact absurd hr (List.not_mem_nil r)
  · rfl

/-- Witness for C7's universal part at the Acme example record. -/
theorem c7_records_rekeyed_to_schema_witness :
    Json.obj [("companyName", Json.str "Acme"), ("website", Json.str ""),
        ("headquarters", Json.str ""), ("yearFounded", Json.str ""),
        ("coreProducts", Json.str ""), ("innovations", Json.str ""),
        ("notes", Json.str "")]
      ∈ extractJsonRecords "```json\n[\x7b\"companyName\":\"Acme\"\x7d]\n```"
    ∧ ∃ kvs,
        Json.obj [("companyName", Json.str "Acme"), ("website", Json.str ""),
          ("headquarters", Json.str ""), ("yearFounded", Json.str ""),
          ("coreProducts", Json.str ""), ("innovations", Json.str ""),
          ("notes", Json.str "")] = Json.obj (rekeyCompany kvs) :=
  ⟨List.mem_singleton_self _,
    c7_records_rekeyed_to_schema.1 "```json\n[\x7b\"companyName\":\"Acme\"\x7d]\n```"
      _ (List.mem_singleton_self _)⟩

/-- C8 (amended): when the text contains a `[` with a later `]` but the
bracket substring fails to parse as JSON, the extraction does NOT fall back
to the fenced-code-block search: it logs a warning and returns the empty
sequence without raising; the code-block fallback is attempted only when no
`[` is followed by a later `]`. -/
theorem c8_parse_failure_returns_empty (text : String)
    (hc : bracketCondition text.toList)
    (hp : pyJsonLoads (bracketSlice text.toList) = none) :
    extractJsonRecords text = [] := by
  rw [extractJsonRecords, if_pos hc, bracketParse, hp]

/-- Witness for C8's amended theorem. -/
theorem c8_parse_failure_returns_empty_witness :
    bracketCondition "[ oops\n```json\n[\x7b\"companyName\":\"Acme\"\x7d]\n```".toList
    ∧ pyJsonLoads (bracketSlice
        "[ oops\n```json\n[\x7b\"companyName\":\"Acme\"\x7d]\n```".toList) = none
    ∧ extractJsonRecords "[ oops\n```json\n[\x7b\"companyName\":\"Acme\"\x7d]\n```" = [] :=
  ⟨by decide, rfl,
    c8_parse_failure_returns_empty "[ oops\n```json\n[\x7b\"companyName\":\"Acme\"\x7d]\n```"
      (by decide) rfl⟩

/-- C8 as stated is false on the code: on a text whose bracket substring
exists but fails to parse, while a fenced ```json block with a parseable
array is present, the code-block strategy would find and parse that block,
yet the extraction returns the empty sequence — the fallback is never
attempted after a parse failure (the `else` on
israeli_companies_gatherer.py line 113 is on bracket existence, not on parse
success). -/
theorem c8_counterexample :
    bracketCondition "[ oops\n```json\n[\x7b\"companyName\":\"Acme\"\x7d]\n```".toList
    ∧ pyJsonLoads (bracketSlice
        "[ oops\n```json\n[\x7b\"companyName\":\"Acme\"\x7d]\n```".toList) = none
    ∧ codeBlockExtract "[ oops\n```json\n[\x7b\"companyName\":\"Acme\"\x7d]\n```"
        = [Json.obj [("companyName", Json.str "Acme")]]
    ∧ extractJsonRecords "[ oops\n```json\n[\x7b\"companyName\":\"Acme\"\x7d]\n```" = [] :=
  ⟨by decide, rfl, rfl, rfl⟩

/-- One log line of the gatherer's `log` method, minus the timestamp. -/
structure LogEntry where
  level : String
  msg : String
deriving DecidableEq

/-- Models `load_categories_from_csv` (israeli_companies_gatherer.py lines
134-150).  The file system is a map from filenames to parsed CSV rows; a
missing file models the caught `FileNotFoundError`: an ERROR is logged and
the accumulated (empty) list is returned instead of raising. -/
def load_categories_from_csv (fs : String → Option (List (String × String)))
    (filename : String) : List (String × String) × List LogEntry :=
  match fs filename with
  | some rows =>
      (rows, [⟨"INFO", "Loaded " ++ toString rows.length
        ++ " category/subcategory pairs from " ++ filename⟩])
  | none => ([], [⟨"ERROR", "Categories file not found: " ++ filename⟩])

/-- Models Python dict assignment `d[k] = v`: replace in place when the key
exists, otherwise append. -/
def pyDictSet (kvs : List (String × Json)) (k : String) (v : Json) :
    List (String × Json) :=
  if (kvs.map Prod.fst).contains k then
    kvs.map fun p => if p.1 == k then (p.1, v) else p
  else kvs ++ [(k, v)]

/-- The opening log lines of the gathering pipeline
(israeli_companies_gatherer.py lines 154-157). -/
def gatherStartLogs (limit : Option Nat) : List LogEntry :=
  ⟨"INFO", "Starting to gather Israeli companies for all subcategories"⟩ ::
    (match limit with
     | some n => [⟨"INFO", "Limited to first " ++ toString n ++ " subcategories"⟩]
     | none => []) ++ [⟨"INFO", (List.replicate 80 '=').asString⟩]

/-- The processing loop of the gathering pipeline
(israeli_companies_gatherer.py lines 166-201), run when categories were
loaded.  `query` is the external Groq collaborator: the record list that
`query_groq_for_israeli_companies` returns for one subcategory (its own
network interaction and logging are outside the model). -/
def gatherRun (query : String → List (List (String × Json)))
    (categories : List (String × String)) (limit : Option Nat) :
    List (List (String × Json)) × List LogEntry :=
  let cats :=
    match limit with
    | some n => categories.take n
    | none => categories
  let limitLogs :=
    match limit with
    | some n =>
        [(⟨"INFO", "Processing limited to first " ++ toString n
            ++ " subcategories"⟩ : LogEntry)]
    | none => []
  let results := cats.map fun cs =>
    (query cs.2).map fun company =>
      pyDictSet (pyDictSet company "category" (Json.str cs.1))
        "subcategory" (Json.str cs.2)
  let iterLogs := (cats.enum.map fun ic =>
    [(⟨"INFO", "\n[" ++ toString (ic.1 + 1) ++ "/" ++ toString cats.length
        ++ "] Processing: " ++ ic.2.1 ++ " > " ++ ic.2.2⟩ : LogEntry),
     ⟨"INFO", (List.replicate 80 '-').asString⟩]).flatten
  let endLogs := [(⟨"INFO", "\n" ++ (List.replicate 80 '=').asString⟩ : LogEntry),
    ⟨"INFO", "Gathering complete!"⟩,
    ⟨"INFO", "Found " ++ toString results.flatten.length
      ++ " Israeli companies across " ++ toString cats.length ++ " subcategories"⟩]
  (results.flatten,
    limitLogs
      ++ [⟨"INFO", "Processing " ++ toString cats.length ++ " subcategories..."⟩]
      ++ iterLogs ++ endLogs)

/-- Models `gather_israeli_companies_for_all_subcategories`
(israeli_companies_gatherer.py lines 152-201): load the categories CSV; when
nothing was loaded, log an ERROR and return the empty result list to the
caller; otherwise run the per-subcategory loop. -/
def gather_israeli_companies_for_all_subcategories
    (fs : String → Option (List (String × String)))
    (query : String → List (List (String × Json)))
    (categoriesFile : String) (limit : Option Nat) :
    List (List (String × Json)) × List LogEntry :=
  if (load_categories_from_csv fs categoriesFile).1.isEmpty then
    ([], gatherStartLogs limit ++ (load_categories_from_csv fs categoriesFile).2
      ++ [⟨"ERROR",
        "No categories found. Please run the scraper first to generate categories."⟩])
  else
    let run := gatherRun query (load_categories_from_csv fs categoriesFile).1 limit
    (run.1, gatherStartLogs limit
      ++ (load_categories_from_csv fs categoriesFile).2 ++ run.2)

/-- C9: when the categories input file does not exist, the gathering
pipeline logs ERROR entries (the load's "Categories file not found" and the
pipeline's "No categories found"), halts, and returns the empty result list
to its caller; the model is total, so no exception escapes. -/
theorem c9_missing_categories_file_returns_empty
    (fs : String → Option (List (String × String)))
    (query : String → List (List (String × Json)))
    (categoriesFile : String) (limit : Option Nat)
    (h : fs categoriesFile = none) :
    (gather_israeli_companies_for_all_subcategories fs query categoriesFile limit).1 = []
    ∧ (⟨"ERROR", "Categories file not found: " ++ categoriesFile⟩ : LogEntry)
        ∈ (gather_israeli_companies_for_all_subcategories fs query categoriesFile limit).2
    ∧ (⟨"ERROR",
        "No categories found. Please run the scraper first to generate categories."⟩ : LogEntry)
        ∈ (gather_israeli_companies_for_all_subcategories fs query categoriesFile limit).2 := by
  have hload : load_categories_from_csv fs categoriesFile
      = ([], [⟨"ERROR", "Categories file not found: " ++ categoriesFile⟩]) := by
    rw [load_categories_from_csv, h]
  rw [gather_israeli_companies_for_all_subcategories, hload]
  refine ⟨rfl, ?_, ?_⟩
  · simp
  · simp

/-- Witness for C9 at a concrete empty file system. -/
theorem c9_missing_categories_file_returns_empty_witness :
    ((fun _ : String => (none : Option (List (String × String))))
        "output/fusion_categories.csv" = none)
    ∧ ((gather_israeli_companies_for_all_subcategories
          (fun _ => none) (fun _ => []) "output/fusion_categories.csv" none).1 = []
      ∧ (⟨"ERROR", "Categories file not found: output/fusion_categories.csv"⟩ : LogEntry)
          ∈ (gather_israeli_companies_for_all_subcategories
              (fun _ => none) (fun _ => []) "output/fusion_categories.csv" none).2
      ∧ (⟨"ERROR",
          "No categories found. Please run the scraper first to generate categories."⟩ : LogEntry)
          ∈ (gather_israeli_companies_for_all_subcategories
              (fun _ => none) (fun _ => []) "output/fusion_categories.csv" none).2) :=
  ⟨rfl, c9_missing_categories_file_returns_empty
    (fun _ => none) (fun _ => []) "output/fusion_categories.csv" none rfl⟩
